import Mathlib

/-!
Shallow embedding of the sql_agent repository's core logic:
the statement-safety validator (`src/database/connection.py`),
the measure-configuration index and resolver (`src/utils/json_loader.py`),
and the staged pipeline (`src/agent/nodes.py`, `src/agent/graph.py`).

Strings are modelled over `List Char`; Python string methods `lower`,
`upper` and `strip` are embedded as the ASCII-faithful functions below
(the repository only ever handles ASCII SQL, aliases and messages).
-/

set_option autoImplicit false

/-- Characters stripped by Python `str.strip()` (ASCII whitespace). -/
def isPySpace (c : Char) : Bool :=
  c == ' ' || c == '\t' || c == '\n' || c == '\r' ||
  c == Char.ofNat 11 || c == Char.ofNat 12

/-- Python `str.strip()` on a character list. -/
def pyStrip (l : List Char) : List Char :=
  ((l.dropWhile isPySpace).reverse.dropWhile isPySpace).reverse

/-- Python `str.upper()` (ASCII). -/
def pyUpper (l : List Char) : List Char := l.map Char.toUpper

/-- Python `str.lower()` (ASCII). -/
def pyLower (l : List Char) : List Char := l.map Char.toLower

/-- Python `str.lower()` at `String` level. -/
def pyLowerS (s : String) : String := ⟨pyLower s.data⟩

/-- Python `str.strip()` at `String` level. -/
def pyStripS (s : String) : String := ⟨pyStrip s.data⟩

/-- Python `k.startswith('_')`. -/
def startsWithUnderscore (s : String) : Bool :=
  match s.data with
  | '_' :: _ => true
  | _ => false

/-- One-pass embedding of `re.sub(r'--.*$', '', sql, flags=re.MULTILINE)`:
on each line, delete everything from the first `--` onward. The flag is true
while inside a line comment; the `$` of `re.MULTILINE` matches before the
newline, so the newline itself survives. -/
def stripLCAux : List Char → Bool → List Char
  | [], _ => []
  | '\n' :: rest, true => '\n' :: stripLCAux rest false
  | _ :: rest, true => stripLCAux rest true
  | '-' :: '-' :: rest, false => stripLCAux rest true
  | c :: rest, false => c :: stripLCAux rest false

def stripLineComments (l : List Char) : List Char := stripLCAux l false

/-- One-pass embedding of `re.sub(r'/\*.*?\*/', '', sql_clean, flags=re.DOTALL)`:
remove each `/*` up to the nearest following `*/` (non-greedy), resuming the
scan after the removed comment. The accumulator holds the characters consumed
since the pending `/*`, in reverse, so that an unclosed `/*` — which the regex
does not match — is restored verbatim at the end of input. -/
def stripBCAux : List Char → Option (List Char) → List Char
  | [], none => []
  | [], some buf => buf.reverse
  | '/' :: '*' :: rest, none => stripBCAux rest (some ['*', '/'])
  | c :: rest, none => c :: stripBCAux rest none
  | '*' :: '/' :: rest, some _ => stripBCAux rest none
  | c :: rest, some buf => stripBCAux rest (some (c :: buf))

def stripBlockComments (l : List Char) : List Char := stripBCAux l none

/-- The comment-stripping / case-folding / trimming pipeline of
`DatabaseConnection.validate_sql` (`connection.py` lines 78-80), in source
order: line comments, then block comments, then `upper`, then `strip`. -/
def cleanSql (l : List Char) : List Char :=
  pyStrip (pyUpper (stripBlockComments (stripLineComments l)))

/-- Python `\w` (ASCII): letters, digits, underscore. -/
def isWordChar (c : Char) : Bool := c.isAlphanum || c == '_'

/-- `kw` matches at the head of `l` with a word boundary after it. -/
def matchesWordAt (l kw : List Char) : Bool :=
  kw.isPrefixOf l &&
    (match l.drop kw.length with
     | [] => true
     | c :: _ => !isWordChar c)

/-- Scan `l` for a whole-word occurrence of `kw`; `prevOk` records whether the
previous character (if any) was a non-word character, i.e. whether a word
boundary precedes the current position. -/
def containsWordAux : Bool → List Char → List Char → Bool
  | _, [], _ => false
  | prevOk, c :: rest, kw =>
      (prevOk && matchesWordAt (c :: rest) kw) ||
        containsWordAux (!isWordChar c) rest kw

/-- `re.search(r'\b' + kw + r'\b', l)` for a keyword of word characters. -/
def containsWord (l kw : List Char) : Bool := containsWordAux true l kw

/-- The fixed forbidden-keyword list of `validate_sql`, in source order. -/
def forbidden_keywords : List String :=
  ["INSERT", "UPDATE", "DELETE", "DROP", "CREATE", "ALTER",
   "TRUNCATE", "GRANT", "REVOKE", "EXEC", "EXECUTE",
   "CALL", "MERGE", "REPLACE", "INTO"]

/-- `DatabaseConnection.validate_sql` (`connection.py` lines 67-102):
strip comments, uppercase, trim; reject non-`SELECT`-initial statements;
then return the first keyword of the fixed list with a whole-word
occurrence, if any. -/
def validate_sql (sql : String) : Bool × Option String :=
  let sql_clean := cleanSql sql.data
  if "SELECT".data.isPrefixOf sql_clean then
    match forbidden_keywords.find? (fun kw => containsWord sql_clean kw.data) with
    | some kw => (false, some ("Forbidden operation detected: " ++ kw))
    | none => (true, none)
  else
    (false, some "Only SELECT statements are allowed")

example : (validate_sql "SELECT * FROM t").1 = true := by decide
example : (validate_sql "INSERT INTO t VALUES (1)").1 = false := by decide
example : validate_sql "SELECT x FROM user_insert_table" = (true, none) := by decide
example :
    validate_sql "SELECT * FROM t WHERE x INTO y" =
      (false, some "Forbidden operation detected: INTO") := by decide
example : (validate_sql "-- c\nSELECT /* hi\nthere */ 1").1 = true := by decide

/-!
Embedding of `src/utils/json_loader.py` (`MeasureJSONLoader`).

The measures directory is modelled as the list of its `*.json` files in glob
order, each paired with its parse result (`none` for a missing-on-read or
malformed file). The index is an association list with Python-dict semantics:
insertion appends, lookup takes the last binding of a key.
-/

/-- A measure configuration record, as read by `scan_measures_directory` via
`config.get(...)` with the defaults used there (absent keys read as `""` /
`[]`). -/
structure MeasureConfig where
  measure_code : String := ""
  measure_name : String := ""
  info_type : String := ""
  formula : String := ""
  filters : List String := []
  default_group_by : List String := []
  aliases : List String := []
  deriving DecidableEq, Repr

/-- The `*.json` files of the measures directory, in glob order; the second
component is the file's parse result (`none`: missing or malformed, or a
JSON value that is falsy in Python, which `scan` skips the same way). -/
abbrev MeasuresDir := List (String × Option MeasureConfig)

/-- The alias index: `alias -> json filename`, Python-dict semantics. -/
abbrev Index := List (String × String)

/-- Dict insertion `self.index[k] = v` (appended binding; lookup is
last-binding-wins, matching overwrite semantics). -/
def insertIdx (idx : Index) (k v : String) : Index := idx ++ [(k, v)]

/-- Dict lookup: the value of the last binding of `q`, if any. -/
def lookupIdx : Index → String → Option String
  | [], _ => none
  | (k, v) :: rest, q =>
      match lookupIdx rest q with
      | some r => some r
      | none => if q = k then some v else none

/-- `json_filename.endswith('.json')`. -/
def hasJsonExt (s : String) : Bool := ".json".data.reverse.isPrefixOf s.data.reverse

/-- `load_measure_config` (lines 117-147): appends the `.json` extension when
missing, then reads the file; a missing or malformed file yields `none`. -/
def load_measure_config (dir : MeasuresDir) (json_filename : String) :
    Option MeasureConfig :=
  match dir.lookup (if hasJsonExt json_filename then json_filename
                    else json_filename ++ ".json") with
  | some (some c) => some c
  | _ => none

/-- Keys a single scanned config contributes to the index: the lowercased
`measure_code` and `measure_name` (each only when non-empty) and every
lowercased alias. Keys are `.lower()`-ed but not stripped. -/
def declared_aliases (c : MeasureConfig) : List String :=
  (if c.measure_code = "" then [] else [c.measure_code]) ++
    (if c.measure_name = "" then [] else [c.measure_name]) ++ c.aliases

def keysOf (c : MeasureConfig) : List String := (declared_aliases c).map pyLowerS

/-- Index insertions performed for one scanned file (lines 67-80). -/
def addConfigKeys (idx : Index) (fname : String) (c : MeasureConfig) : Index :=
  let i1 := if c.measure_code = "" then idx
            else insertIdx idx (pyLowerS c.measure_code) fname
  let i2 := if c.measure_name = "" then i1
            else insertIdx i1 (pyLowerS c.measure_name) fname
  c.aliases.foldl (fun i a => insertIdx i (pyLowerS a) fname) i2

/-- One iteration of the scan loop: load the file, skip it when unreadable. -/
def scan_step (dir : MeasuresDir) (idx : Index) (p : String × Option MeasureConfig) :
    Index :=
  match load_measure_config dir p.1 with
  | some c => addConfigKeys idx p.1 c
  | none => idx

/-- `scan_measures_directory` (lines 49-87): reset the index, scan every
`*.json` file, insert the keys each readable file declares, and persist the
result via `save_index`. -/
def scan_measures_directory (dir : MeasuresDir) : Index :=
  dir.foldl (scan_step dir) []

/-- `save_index` (lines 41-47): `json.dump` of the in-memory index, verbatim —
the persisted file content equals the in-memory index, with no filtering. -/
def save_index (idx : Index) : Index := idx

/-- `_load_index` (lines 24-39) applied to the persisted file's content:
`none` models a missing or malformed file (degrades to the empty index);
otherwise keys starting with `'_'` are filtered out. -/
def load_index (data : Option Index) : Index :=
  match data with
  | none => []
  | some m => m.filter (fun p => !(startsWithUnderscore p.1))

/-- `find_measure_json` (lines 89-115): normalize with `.lower().strip()`,
check the in-memory index; on a miss rescan the directory once and check
again. Returns the result together with the loader's index afterwards
(`self.index` is mutated by the rescan). -/
def find_measure_json (dir : MeasuresDir) (idx : Index) (measure_name : String) :
    Option String × Index :=
  let search_term := pyStripS (pyLowerS measure_name)
  match lookupIdx idx search_term with
  | some f => (some f, idx)
  | none =>
      let idx' := scan_measures_directory dir
      (lookupIdx idx' search_term, idx')

/-- `get_measure_config` (lines 149-162): `find_measure_json`, then load the
identified file; any failure — unknown alias, missing file, malformed file —
collapses to `none`. -/
def get_measure_config (dir : MeasuresDir) (idx : Index) (measure_name : String) :
    Option MeasureConfig × Index :=
  let (fOpt, idx') := find_measure_json dir idx measure_name
  match fOpt with
  | some f => (load_measure_config dir f, idx')
  | none => (none, idx')

/-- Well-formed directory listing: filenames are distinct (a real directory)
and carry the `.json` extension (they come from `glob("*.json")`). -/
abbrev DirWF (dir : MeasuresDir) : Prop :=
  dir.Pairwise (fun p q => p.1 ≠ q.1) ∧ ∀ p ∈ dir, hasJsonExt p.1 = true

/-- Sample configuration used in concrete evaluations below. -/
def cfgCE : MeasureConfig :=
  { measure_code := "CE"
    measure_name := "Current Exposure"
    info_type := "CE"
    formula := "SUM(exposure_value)"
    filters := ["info_type='CE'", "measure_code='CE'"]
    default_group_by := ["obligor_rdm_id"]
    aliases := ["current exposure", "exposure"] }

def dirCE : MeasuresDir := [("ce.json", some cfgCE)]

example : lookupIdx (scan_measures_directory dirCE) "ce" = some "ce.json" := by decide
example : find_measure_json dirCE [] "Current Exposure" =
    (some "ce.json", scan_measures_directory dirCE) := by decide
example : (find_measure_json dirCE [] " CE ").1 = some "ce.json" := by decide
example : (get_measure_config dirCE [] "exposure").1 = some cfgCE := by decide
example : (get_measure_config dirCE [] "unknown").1 = none := by decide

/-!
Embedding of the pipeline: `src/agent/state.py`, `src/agent/nodes.py` and
`src/agent/graph.py`.

`AgentState` is the dict threaded through the nodes; fields the nodes read
with `state.get(key)` (no default) or test for presence are modelled as
`Option`, with `none` covering both an absent key and an explicit `None`;
fields read with a `[]`-style default are modelled with that default.

The LLM is the external text-generation oracle: each oracle function receives
exactly the data its node embeds in the prompt and returns the node's parsed
reply — structured output for the interpret stage, reply text after the
node's `strip()` / markdown-fence extraction for the rewrite and SQL stages —
or an error message for a failed call or unparsable reply, which the node's
exception handler writes into the `error` slot.
-/

/-- A result row (`df.to_dict('records')` entry): column name to value. -/
abbrev Row := List (String × String)

structure AgentState where
  user_query : String := ""
  sql_review_enabled : Option Bool := none
  identified_measures : List String := []
  identified_dimensions : List String := []
  group_by_dimensions : List String := []
  user_filters : List (String × String) := []
  rewritten_query : Option String := none
  user_confirmed_query : Option String := none
  measure_configs : Option (List (String × MeasureConfig)) := none
  generated_sql : Option String := none
  user_confirmed_sql : Option String := none
  execution_results : Option (List Row) := none
  csv_path : Option String := none
  error : Option String := none
  connection_string : Option String := none
  deriving DecidableEq, Repr

/-- Python truthiness of an optional string: `None` and `''` are falsy. -/
def pyFalsyStr (o : Option String) : Bool :=
  match o with
  | none => true
  | some s => s = ""

/-- `if state.get("error")` — the conditional-edge test in `graph.py`. -/
def errSet (st : AgentState) : Bool := !pyFalsyStr st.error

/-- Structured output of the interpret oracle (§ the `measures` / `group_by`
/ `filters` JSON contract). -/
structure InterpretResult where
  measures : List String := []
  group_by : List String := []
  filters : List (String × String) := []
  deriving DecidableEq, Repr

/-- The three oracle calls the pipeline makes, as pure interfaces. -/
structure Oracles where
  interpret : String → Except String InterpretResult
  rewrite : String → List String → List String → List (String × String) →
    List (String × MeasureConfig) → Except String String
  generate : String → List (String × MeasureConfig) → List String →
    Except String String

/-- Node 1 (`input_node`): prints only; the state passes through unchanged. -/
def input_node (st : AgentState) : AgentState := st

/-- Node 2 (`identify_measures_node`): parse the oracle's JSON into
`identified_measures` / `group_by_dimensions` / `user_filters`
(`identified_dimensions` mirrors `group_by` for backward compatibility);
on oracle failure or unparsable output, set `error`. -/
def identify_measures_node (oracle : Except String InterpretResult)
    (st : AgentState) : AgentState :=
  match oracle with
  | .ok r =>
      { st with identified_measures := r.measures
                group_by_dimensions := r.group_by
                user_filters := r.filters
                identified_dimensions := r.group_by }
  | .error e => { st with error := some e }

/-- Node 3 (`rewrite_query_node`): rewrite the query from the identified
measures, dimensions, filters and the (at this point normally absent)
measure configs; store the reply, or set `error` on failure. -/
def rewrite_query_node (o : Oracles) (st : AgentState) : AgentState :=
  match o.rewrite st.user_query st.identified_measures st.group_by_dimensions
      st.user_filters (st.measure_configs.getD []) with
  | .ok t => { st with rewritten_query := some t }
  | .error e => { st with error := some ("Error rewriting query: " ++ e) }

/-- Node 4 (`human_review_node1`): auto-confirm — when `user_confirmed_query`
is absent or empty it is set to `rewritten_query` (default `''`). -/
def human_review_node1 (st : AgentState) : AgentState :=
  if pyFalsyStr st.user_confirmed_query then
    { st with user_confirmed_query := some (st.rewritten_query.getD "") }
  else st

/-- The aggregated failure message of `json_lookup_node` (line 236). -/
def notFoundMsg (not_found : List String) : String :=
  "Configuration not found for measure(s): " ++ String.intercalate ", " not_found ++
    ". Please upload the required JSON configuration files."

/-- The lookup loop of `json_lookup_node` (lines 222-232): one
`MeasureJSONLoader` serves every measure, so the in-memory index (mutated by
rescans) threads through the iterations. Returns the loaded configs, the
names that failed, and the final index. -/
def lookupAll (dir : MeasuresDir) :
    List String → Index → List (String × MeasureConfig) × List String × Index
  | [], idx => ([], [], idx)
  | m :: rest, idx =>
      let r := get_measure_config dir idx m
      let rec' := lookupAll dir rest r.2
      match r.1 with
      | some c => ((m, c) :: rec'.1, rec'.2.1, rec'.2.2)
      | none => (rec'.1, m :: rec'.2.1, rec'.2.2)

/-- Node 5 (`json_lookup_node`): resolve every identified measure; if any
failed, set `error` to the single aggregated message and return without
touching `measure_configs`; otherwise store the full mapping. -/
def json_lookup_node (dir : MeasuresDir) (idx : Index) (st : AgentState) :
    AgentState :=
  let r := lookupAll dir st.identified_measures idx
  if r.2.1 = [] then { st with measure_configs := some r.1 }
  else { st with error := some (notFoundMsg r.2.1) }

/-- Node 6 (`sql_generation_node`): generate SQL from the confirmed query,
the configs and the dimensions; store it, then immediately validate it and
set `error` when validation fails; oracle failure also sets `error`. -/
def sql_generation_node (o : Oracles) (st : AgentState) : AgentState :=
  match o.generate (st.user_confirmed_query.getD "") (st.measure_configs.getD [])
      st.identified_dimensions with
  | .error e => { st with error := some ("Error generating SQL: " ++ e) }
  | .ok sql =>
      let st' := { st with generated_sql := some sql }
      match validate_sql sql with
      | (true, _) => st'
      | (false, msg) =>
          { st' with
              error := some ("Generated SQL validation failed: " ++ msg.getD "") }

/-- Node 7 (`human_review_node2`): with review enabled (default), auto-confirm
an absent/empty `user_confirmed_sql` from `generated_sql`; with review
disabled, set it unconditionally. -/
def human_review_node2 (st : AgentState) : AgentState :=
  if st.sql_review_enabled.getD true then
    if pyFalsyStr st.user_confirmed_sql then
      { st with user_confirmed_sql := some (st.generated_sql.getD "") }
    else st
  else { st with user_confirmed_sql := some (st.generated_sql.getD "") }

/-- The statement Node 8 submits (line 364):
`state.get('user_confirmed_sql') or state.get('generated_sql', '')` —
an absent, `None` or empty confirmed SQL falls back to the generated SQL. -/
def submittedSql (st : AgentState) : String :=
  match st.user_confirmed_sql with
  | some s => if s = "" then st.generated_sql.getD "" else s
  | none => st.generated_sql.getD ""

/-- Node 8 (`execute_and_export_node`): pick the statement, resolve the
connection string (state, then environment), re-validate via
`execute_query_to_dataframe` and run it; every failure sets `error`. The
engine stands for `pd.read_sql` against the connected database, including
connection-level failures. -/
def execute_and_export_node (envConn : String)
    (engine : String → Except String (List Row)) (st : AgentState) : AgentState :=
  let sql := submittedSql st
  let conn := match st.connection_string with
              | some c => if c = "" then envConn else c
              | none => envConn
  if conn = "" then
    { st with error := some ("Database connection string not configured. " ++
        "Please set DB_CONNECTION_STRING in .env file or provide " ++
        "connection_string in state.") }
  else
    match validate_sql sql with
    | (false, msg) =>
        { st with error := some ("SQL Validation Error: " ++ msg.getD "") }
    | (true, _) =>
        match engine sql with
        | .error e => { st with error := some e }
        | .ok rows => { st with execution_results := some rows, csv_path := none }

/-- The unconditional prefix of the graph (`create_workflow`, lines 40-43):
input → identify → rewrite → review1 → json_lookup, with no error check on
any of these edges. -/
def pipeline_pre_sql (o : Oracles) (dir : MeasuresDir) (idx : Index)
    (st0 : AgentState) : AgentState :=
  json_lookup_node dir idx
    (human_review_node1
      (rewrite_query_node o
        (identify_measures_node (o.interpret (input_node st0).user_query)
          (input_node st0))))

/-- The segment between the two conditional edges: generate_sql → review2. -/
def pipeline_pre_execute (o : Oracles) (st : AgentState) : AgentState :=
  human_review_node2 (sql_generation_node o st)

/-- `create_workflow` / `run_workflow`: the linear graph with its two
conditional edges — after `json_lookup` and after `review2`, each routing to
END when `state.get("error")` is truthy. -/
def run_workflow (o : Oracles) (dir : MeasuresDir) (idx : Index)
    (envConn : String) (engine : String → Except String (List Row))
    (st0 : AgentState) : AgentState :=
  let s5 := pipeline_pre_sql o dir idx st0
  if errSet s5 then s5
  else
    let s7 := pipeline_pre_execute o s5
    if errSet s7 then s7
    else execute_and_export_node envConn engine s7

/-!
Claims about the statement validator.
-/

/-- `List.find?` returns `kw` when `kw` satisfies `p` and every earlier list
element does not. -/
theorem find_of_first (p : String → Bool) :
    ∀ (l : List String) (kw : String), kw ∈ l → p kw = true →
      (∀ k ∈ l.takeWhile (fun k => k != kw), p k = false) →
      l.find? p = some kw := by
  intro l
  induction l with
  | nil => intro kw h; simp at h
  | cons a l ih =>
      intro kw hmem hp hpre
      by_cases hak : a = kw
      · subst hak
        simp [List.find?_cons, hp]
      · have ha : p a = false := by
          apply hpre
          simp [List.takeWhile_cons, hak]
        rw [List.find?_cons, ha]
        have hmem' : kw ∈ l := by
          rcases List.mem_cons.mp hmem with h | h
          · exact absurd h.symm hak
          · exact h
        apply ih kw hmem' hp
        intro k hk
        apply hpre
        simp only [List.takeWhile_cons]
        have : (a != kw) = true := by simp [hak]
        rw [this]
        simpa using Or.inr hk

/-- C2: every SQL string whose comment-stripped, uppercased, trimmed form
does not begin with `SELECT` is rejected by `validate_sql`. -/
theorem validate_sql_rejects_non_select (s : String)
    (h : "SELECT".data.isPrefixOf (cleanSql s.data) = false) :
    validate_sql s = (false, some "Only SELECT statements are allowed") := by
  simp [validate_sql, h]

theorem validate_sql_rejects_non_select_witness :
    "SELECT".data.isPrefixOf (cleanSql "DROP TABLE users".data) = false ∧
    validate_sql "DROP TABLE users" =
      (false, some "Only SELECT statements are allowed") :=
  ⟨by decide, validate_sql_rejects_non_select "DROP TABLE users" (by decide)⟩

/-- C3 counterexample: `"insert into t values (1)"` contains the forbidden
keywords `INSERT` and `INTO` as whole words, yet `validate_sql` reports
`"Only SELECT statements are allowed"`, not the keyword: the keyword scan is
only reached for `SELECT`-initial statements. -/
theorem validate_sql_keyword_reason_cex :
    containsWord (cleanSql "insert into t values (1)".data) "INSERT".data = true ∧
    containsWord (cleanSql "insert into t values (1)".data) "INTO".data = true ∧
    validate_sql "insert into t values (1)" =
      (false, some "Only SELECT statements are allowed") ∧
    (validate_sql "insert into t values (1)").2 ≠
      some "Forbidden operation detected: INSERT" ∧
    (validate_sql "insert into t values (1)").2 ≠
      some "Forbidden operation detected: INTO" := by decide

/-- C3 amended: (1) a whole-word forbidden keyword always makes `validate_sql`
reject; (2) for a `SELECT`-initial statement the reported reason is the first
keyword in the fixed list order with a whole-word occurrence; (3) a
`SELECT`-initial statement in which no forbidden keyword occurs as a whole
word — keywords buried inside longer identifiers do not count — is accepted. -/
theorem validate_sql_forbidden_keywords :
    (∀ s kw, kw ∈ forbidden_keywords →
      containsWord (cleanSql s.data) kw.data = true →
      (validate_sql s).1 = false) ∧
    (∀ s kw, "SELECT".data.isPrefixOf (cleanSql s.data) = true →
      kw ∈ forbidden_keywords →
      containsWord (cleanSql s.data) kw.data = true →
      (∀ k ∈ forbidden_keywords.takeWhile (fun k => k != kw),
        containsWord (cleanSql s.data) k.data = false) →
      validate_sql s = (false, some ("Forbidden operation detected: " ++ kw))) ∧
    (∀ s, "SELECT".data.isPrefixOf (cleanSql s.data) = true →
      (∀ kw ∈ forbidden_keywords, containsWord (cleanSql s.data) kw.data = false) →
      validate_sql s = (true, none)) := by
  refine ⟨?_, ?_, ?_⟩
  · intro s kw hkw hc
    by_cases hsel : "SELECT".data.isPrefixOf (cleanSql s.data) = true
    · cases hfind : forbidden_keywords.find?
          (fun k => containsWord (cleanSql s.data) k.data) with
      | none =>
          exfalso
          have := List.find?_eq_none.mp hfind kw hkw
          simp [hc] at this
      | some k => simp [validate_sql, hsel, hfind]
    · simp at hsel
      simp [validate_sql, hsel]
  · intro s kw hsel hkw hc hpre
    have hfind : forbidden_keywords.find?
        (fun k => containsWord (cleanSql s.data) k.data) = some kw :=
      find_of_first _ forbidden_keywords kw hkw hc hpre
    simp [validate_sql, hsel, hfind]
  · intro s hsel hnone
    have hfind : forbidden_keywords.find?
        (fun k => containsWord (cleanSql s.data) k.data) = none := by
      apply List.find?_eq_none.mpr
      intro k hk
      simp [hnone k hk]
    simp [validate_sql, hsel, hfind]

theorem validate_sql_forbidden_keywords_witness :
    (validate_sql "update t set x = 1").1 = false ∧
    validate_sql "SELECT a FROM t WHERE EXEC f" =
      (false, some "Forbidden operation detected: EXEC") ∧
    validate_sql "SELECT name FROM user_insert_table" = (true, none) :=
  ⟨validate_sql_forbidden_keywords.1 "update t set x = 1" "UPDATE"
      (by decide) (by decide),
   validate_sql_forbidden_keywords.2.1 "SELECT a FROM t WHERE EXEC f" "EXEC"
      (by decide) (by decide) (by decide) (by decide),
   validate_sql_forbidden_keywords.2.2 "SELECT name FROM user_insert_table"
      (by decide) (by decide)⟩

/-- C7 counterexample: the empty and whitespace-only statements are rejected,
but with exactly the `"Only SELECT statements are allowed"` reason that any
non-`SELECT` statement receives — there is no distinct rejection for them. -/
theorem validate_sql_empty_same_reason_cex :
    (validate_sql "").1 = false ∧
    (validate_sql "   ").1 = false ∧
    (validate_sql "-- just a comment").1 = false ∧
    (validate_sql "").2 = (validate_sql "UPDATE t SET x = 1").2 ∧
    (validate_sql "   ").2 = some "Only SELECT statements are allowed" := by
  decide

/-- C7 amended: every statement that is empty after comment stripping and
trimming (empty, whitespace-only, or comment-only input) is rejected as
invalid, with the same `"Only SELECT statements are allowed"` reason used
for any non-`SELECT` statement. -/
theorem validate_sql_rejects_empty (s : String) (h : cleanSql s.data = []) :
    validate_sql s = (false, some "Only SELECT statements are allowed") := by
  apply validate_sql_rejects_non_select
  rw [h]
  decide

theorem validate_sql_rejects_empty_witness :
    cleanSql " \t\n".data = [] ∧ cleanSql "/* note */".data = [] ∧
    validate_sql " \t\n" = (false, some "Only SELECT statements are allowed") ∧
    validate_sql "/* note */" = (false, some "Only SELECT statements are allowed") :=
  ⟨by decide, by decide,
   validate_sql_rejects_empty " \t\n" (by decide),
   validate_sql_rejects_empty "/* note */" (by decide)⟩

/-!
Claims about the configuration index and resolver.
-/

theorem lookupIdx_insert (idx : Index) (k v q : String) :
    lookupIdx (insertIdx idx k v) q = if q = k then some v else lookupIdx idx q := by
  induction idx with
  | nil => simp [insertIdx, lookupIdx]
  | cons p rest ih =>
      obtain ⟨a, b⟩ := p
      show lookupIdx ((a, b) :: (insertIdx rest k v)) q = _
      rw [lookupIdx, ih]
      by_cases hqk : q = k
      · simp [hqk, lookupIdx]
      · simp only [hqk, if_false]
        rw [lookupIdx]

theorem lookupIdx_fold_aliases (f : String) (as : List String) :
    ∀ (idx : Index) (q : String),
      lookupIdx (as.foldl (fun i a => insertIdx i (pyLowerS a) f) idx) q =
        if q ∈ as.map pyLowerS then some f else lookupIdx idx q := by
  induction as with
  | nil => intro idx q; simp
  | cons a as ih =>
      intro idx q
      rw [List.foldl_cons, ih, lookupIdx_insert]
      by_cases h1 : q ∈ as.map pyLowerS <;> by_cases h2 : q = pyLowerS a <;>
        simp [h1, h2]

theorem lookupIdx_addConfigKeys (idx : Index) (fname : String) (c : MeasureConfig)
    (q : String) :
    lookupIdx (addConfigKeys idx fname c) q =
      if q ∈ keysOf c then some fname else lookupIdx idx q := by
  by_cases hc : c.measure_code = "" <;> by_cases hn : c.measure_name = "" <;>
    simp only [addConfigKeys, keysOf, declared_aliases, hc, hn, if_true, if_false,
      ite_true, ite_false, List.map_append, List.map_cons, List.map_nil,
      List.nil_append, List.cons_append, lookupIdx_fold_aliases, lookupIdx_insert,
      List.mem_append, List.mem_cons, List.mem_map, List.not_mem_nil,
      List.mem_singleton] <;>
    by_cases h1 : q ∈ c.aliases.map pyLowerS <;>
    by_cases h2 : q = pyLowerS c.measure_name <;>
    by_cases h3 : q = pyLowerS c.measure_code <;>
    simp_all [List.mem_map]

/-- Folding the scan step preserves an established binding when no later file
redeclares the key for a different file. -/
theorem scan_foldl_preserve (dir : MeasuresDir) (l : MeasuresDir) :
    ∀ (idx : Index) (q f : String), lookupIdx idx q = some f →
      (∀ p ∈ l, ∀ c, load_measure_config dir p.1 = some c →
        q ∈ keysOf c → p.1 = f) →
      lookupIdx (l.foldl (scan_step dir) idx) q = some f := by
  induction l with
  | nil => intro idx q f h _; simpa using h
  | cons p l ih =>
      intro idx q f h huniq
      rw [List.foldl_cons]
      apply ih _ _ _ _ (fun p' hp' => huniq p' (List.mem_cons_of_mem _ hp'))
      unfold scan_step
      cases hload : load_measure_config dir p.1 with
      | none => exact h
      | some c =>
          rw [lookupIdx_addConfigKeys]
          by_cases hq : q ∈ keysOf c
          · rw [huniq p (List.mem_cons_self _ _) c hload hq] at *
            simp [hq]
          · simp [hq, h]

/-- Folding the scan step over a list containing a file that declares `q`
(and such that every file declaring `q` is `f`) binds `q` to `f`. -/
theorem scan_foldl_mem (dir : MeasuresDir) (l : MeasuresDir) :
    ∀ (idx : Index) (q f : String),
      (∀ p ∈ l, ∀ c, load_measure_config dir p.1 = some c →
        q ∈ keysOf c → p.1 = f) →
      (∃ p ∈ l, ∃ c, load_measure_config dir p.1 = some c ∧ q ∈ keysOf c) →
      lookupIdx (l.foldl (scan_step dir) idx) q = some f := by
  induction l with
  | nil => intro idx q f _ hmem; simp at hmem
  | cons p l ih =>
      intro idx q f huniq hmem
      rw [List.foldl_cons]
      by_cases hhead : ∃ c, load_measure_config dir p.1 = some c ∧ q ∈ keysOf c
      · obtain ⟨c, hload, hq⟩ := hhead
        apply scan_foldl_preserve dir l _ _ _ _
          (fun p' hp' => huniq p' (List.mem_cons_of_mem _ hp'))
        unfold scan_step
        rw [hload, lookupIdx_addConfigKeys]
        rw [huniq p (List.mem_cons_self _ _) c hload hq] at *
        simp [hq]
      · apply ih _ _ _ (fun p' hp' => huniq p' (List.mem_cons_of_mem _ hp'))
        rcases hmem with ⟨p', hp', c', hc', hq'⟩
        rcases List.mem_cons.mp hp' with heq | htail
        · exact absurd ⟨c', by rw [← heq]; exact ⟨hc', hq'⟩⟩ hhead
        · exact ⟨p', htail, c', hc', hq'⟩

/-- Folding the scan step over a list containing a file that declares `q`
yields some binding for `q`. -/
theorem scan_foldl_isSome (dir : MeasuresDir) (l : MeasuresDir) :
    ∀ (idx : Index) (q : String),
      (∃ p ∈ l, ∃ c, load_measure_config dir p.1 = some c ∧ q ∈ keysOf c) →
      (lookupIdx (l.foldl (scan_step dir) idx) q).isSome = true := by
  have hpres : ∀ (l' : MeasuresDir) (idx : Index) (q : String),
      (lookupIdx idx q).isSome = true →
      (lookupIdx (l'.foldl (scan_step dir) idx) q).isSome = true := by
    intro l'
    induction l' with
    | nil => intro idx q h; simpa using h
    | cons p l' ih =>
        intro idx q h
        rw [List.foldl_cons]
        apply ih
        unfold scan_step
        cases hload : load_measure_config dir p.1 with
        | none => exact h
        | some c =>
            rw [lookupIdx_addConfigKeys]
            by_cases hq : q ∈ keysOf c <;> simp [hq, h]
  induction l with
  | nil => intro idx q hmem; simp at hmem
  | cons p l ih =>
      intro idx q hmem
      rw [List.foldl_cons]
      by_cases hhead : ∃ c, load_measure_config dir p.1 = some c ∧ q ∈ keysOf c
      · obtain ⟨c, hload, hq⟩ := hhead
        apply hpres
        unfold scan_step
        rw [hload, lookupIdx_addConfigKeys]
        simp [hq]
      · apply ih
        rcases hmem with ⟨p', hp', c', hc', hq'⟩
        rcases List.mem_cons.mp hp' with heq | htail
        · exact absurd ⟨c', by rw [← heq]; exact ⟨hc', hq'⟩⟩ hhead
        · exact ⟨p', htail, c', hc', hq'⟩

/-- With pairwise-distinct keys, `List.lookup` of a member returns its value. -/
theorem dir_lookup_of_mem :
    ∀ (l : MeasuresDir), l.Pairwise (fun p q => p.1 ≠ q.1) →
      ∀ (fname : String) (content : Option MeasureConfig), (fname, content) ∈ l →
        l.lookup fname = some content := by
  intro l
  induction l with
  | nil => intro _ f c h; simp at h
  | cons p rest ih =>
      intro hpw f c hmem
      obtain ⟨k, v⟩ := p
      rcases List.mem_cons.mp hmem with heq | htail
      · cases heq
        simp [List.lookup]
      · have hne : k ≠ f := by
          have := (List.pairwise_cons.mp hpw).1 (f, c) htail
          simpa using this
        have hbeq : (f == k) = false := by
          simp [Ne.symm hne]
        rw [List.lookup, hbeq]
        exact ih (List.pairwise_cons.mp hpw).2 f c htail

/-- In a well-formed directory, loading a listed file returns its content. -/
theorem load_of_mem (dir : MeasuresDir) (hwf : DirWF dir)
    (fname : String) (content : Option MeasureConfig)
    (hmem : (fname, content) ∈ dir) :
    load_measure_config dir fname = content := by
  have hext : hasJsonExt fname = true := hwf.2 (fname, content) hmem
  have hlook := dir_lookup_of_mem dir hwf.1 fname content hmem
  unfold load_measure_config
  rw [if_pos hext, hlook]
  cases content <;> rfl

/-- C5 counterexample: `dirWS` declares the alias `" padded alias "`, which
carries surrounding whitespace. Index keys are only `.lower()`-ed, while the
lookup strips its search term, so a lookup for this declared alias misses
even after the rescan: the self-healing promise fails on first call. -/
def cfgWS : MeasureConfig := { measure_code := "WSM", aliases := [" padded alias "] }

def dirWS : MeasuresDir := [("ws.json", some cfgWS)]

theorem find_measure_json_whitespace_alias_cex :
    " padded alias " ∈ declared_aliases cfgWS ∧
    DirWF dirWS ∧
    (find_measure_json dirWS [] " padded alias ").1 = none := by
  refine ⟨by decide, ⟨by decide, by decide⟩, by decide⟩

/-- C5 amended: `find_measure_json` normalizes with `.lower().strip()`,
answers from the in-memory index on a hit, and on a miss rescans the
directory exactly once before answering from the rebuilt index (absent if
still missing); consequently a lookup for an alias declared by a file
present in storage — provided the alias carries no surrounding whitespace,
since index keys are lowercased but not stripped — succeeds on the first
call even when the in-memory index predates the file. -/
theorem find_measure_json_behavior :
    (∀ (dir : MeasuresDir) (idx : Index) (name f : String),
      lookupIdx idx (pyStripS (pyLowerS name)) = some f →
      find_measure_json dir idx name = (some f, idx)) ∧
    (∀ (dir : MeasuresDir) (idx : Index) (name : String),
      lookupIdx idx (pyStripS (pyLowerS name)) = none →
      find_measure_json dir idx name =
        (lookupIdx (scan_measures_directory dir) (pyStripS (pyLowerS name)),
          scan_measures_directory dir)) ∧
    (∀ (dir : MeasuresDir) (idx : Index) (fname : String) (c : MeasureConfig)
        (a : String),
      DirWF dir → (fname, some c) ∈ dir → a ∈ declared_aliases c →
      pyStripS (pyLowerS a) = pyLowerS a →
      ((find_measure_json dir idx a).1).isSome = true) := by
  refine ⟨?_, ?_, ?_⟩
  · intro dir idx name f h
    simp [find_measure_json, h]
  · intro dir idx name h
    simp [find_measure_json, h]
  · intro dir idx fname c a hwf hmem hal htrim
    have hkey : pyLowerS a ∈ keysOf c := List.mem_map_of_mem pyLowerS hal
    have hscan : (lookupIdx (scan_measures_directory dir) (pyLowerS a)).isSome
        = true := by
      apply scan_foldl_isSome dir dir
      exact ⟨(fname, some c), hmem, c, load_of_mem dir hwf fname (some c) hmem, hkey⟩
    cases h0 : lookupIdx idx (pyLowerS a) with
    | some f => simp [find_measure_json, htrim, h0]
    | none => simp [find_measure_json, htrim, h0, hscan]

theorem find_measure_json_behavior_witness :
    ((find_measure_json dirCE [] "Current Exposure").1).isSome = true :=
  find_measure_json_behavior.2.2 dirCE [] "ce.json" cfgCE "Current Exposure"
    ⟨by decide, by decide⟩ (by decide) (by decide) (by decide)

/-- C6 counterexample: `dirNE` declares the alias `"net exposure "` (trailing
blank). After a full rebuild the index holds the key `"net exposure "` —
lowercased but not whitespace-trimmed — yet the round-trip lookup for the
very alias the file declares returns absent, because the lookup strips its
search term to `"net exposure"`. -/
def cfgNE : MeasureConfig := { measure_code := "NE", aliases := ["net exposure "] }

def dirNE : MeasuresDir := [("ne.json", some cfgNE)]

theorem scan_roundtrip_whitespace_cex :
    "net exposure " ∈ declared_aliases cfgNE ∧
    lookupIdx (scan_measures_directory dirNE) "net exposure " = some "ne.json" ∧
    (find_measure_json dirNE (scan_measures_directory dirNE) "net exposure ").1
      = none := by
  refine ⟨by decide, by decide, by decide⟩

/-- C6 amended: after `rebuild`, a lookup for an alias declared by a scanned
file returns that file's identifier provided the alias carries no
surrounding whitespace (index keys are lowercased but not trimmed) and no
other scanned file declares the same lowercased key (on collisions the last
scanned file wins); and two lookups whose search terms normalize —
`.lower().strip()` — to the same key always resolve identically. -/
theorem scan_lookup_roundtrip :
    (∀ (dir : MeasuresDir) (fname : String) (c : MeasureConfig) (a : String),
      DirWF dir → (fname, some c) ∈ dir → a ∈ declared_aliases c →
      pyStripS (pyLowerS a) = pyLowerS a →
      (∀ (f' : String) (c' : MeasureConfig), (f', some c') ∈ dir →
        pyLowerS a ∈ keysOf c' → f' = fname) →
      find_measure_json dir (scan_measures_directory dir) a =
        (some fname, scan_measures_directory dir)) ∧
    (∀ (dir : MeasuresDir) (idx : Index) (s₁ s₂ : String),
      pyStripS (pyLowerS s₁) = pyStripS (pyLowerS s₂) →
      find_measure_json dir idx s₁ = find_measure_json dir idx s₂) := by
  constructor
  · intro dir fname c a hwf hmem hal htrim huniq
    have hkey : pyLowerS a ∈ keysOf c := List.mem_map_of_mem pyLowerS hal
    have hscan : lookupIdx (scan_measures_directory dir) (pyLowerS a) =
        some fname := by
      apply scan_foldl_mem dir dir
      · intro p hp c' hload hq
        have hp' : (p.1, p.2) ∈ dir := by rw [Prod.mk.eta]; exact hp
        have hcontent := load_of_mem dir hwf p.1 p.2 hp'
        rw [hload] at hcontent
        have hpmem : (p.1, some c') ∈ dir := by rwa [← hcontent] at hp'
        exact huniq p.1 c' hpmem hq
      · exact ⟨(fname, some c), hmem, c, load_of_mem dir hwf fname (some c) hmem,
          hkey⟩
    simp [find_measure_json, htrim, hscan]
  · intro dir idx s₁ s₂ h
    unfold find_measure_json
    rw [h]

theorem scan_lookup_roundtrip_witness :
    find_measure_json dirCE (scan_measures_directory dirCE) "exposure" =
      (some "ce.json", scan_measures_directory dirCE) ∧
    find_measure_json dirCE [] " CE " = find_measure_json dirCE [] "ce" :=
  ⟨scan_lookup_roundtrip.1 dirCE "ce.json" cfgCE "exposure"
      ⟨by decide, by decide⟩ (by decide) (by decide) (by decide)
      (by
        intro f' c' hm hk
        have h1 : f' = "ce.json" ∧ some c' = some cfgCE := by
          simpa [dirCE, Prod.ext_iff] using hm
        exact h1.1),
   scan_lookup_roundtrip.2 dirCE [] " CE " "ce" (by decide)⟩

/-- C8 counterexample: a configuration declaring the underscore-prefixed code
`"_internal"` and alias `"_hidden"` puts those keys into the rebuilt index,
and `save_index` persists the index verbatim — so rebuild/save does write
keys beginning with the reserved `'_'` prefix. -/
def cfgUnd : MeasureConfig :=
  { measure_code := "_internal", aliases := ["_hidden"] }

def dirUnd : MeasuresDir := [("u.json", some cfgUnd)]

theorem scan_writes_underscore_key_cex :
    lookupIdx (save_index (scan_measures_directory dirUnd)) "_internal" =
      some "u.json" ∧
    lookupIdx (save_index (scan_measures_directory dirUnd)) "_hidden" =
      some "u.json" ∧
    startsWithUnderscore "_internal" = true := by
  refine ⟨by decide, by decide, by decide⟩

/-- C8 amended: loading the persisted index never yields a key beginning with
the reserved `'_'` prefix — `_load_index` filters such keys out — while
`save_index` persists the in-memory index verbatim, so rebuild/save can
write underscore-prefixed keys when a configuration declares them. -/
theorem load_index_filters_underscore (data : Option Index) :
    ∀ p ∈ load_index data, startsWithUnderscore p.1 = false := by
  intro p hp
  cases data with
  | none => simp [load_index] at hp
  | some m =>
      simp only [load_index, List.mem_filter] at hp
      simpa using hp.2

theorem load_index_filters_underscore_witness :
    startsWithUnderscore ("ce", "ce.json").1 = false :=
  load_index_filters_underscore (some [("_comment", "reserved"), ("ce", "ce.json")])
    ("ce", "ce.json") (by decide)

/-- C9 counterexample: the stale persisted index maps `"stale"` to
`bad.json`, whose backing file is malformed, while `"missing"` has no index
entry at all. Both failures surface identically: `get_measure_config`
returns absent in both cases, and `json_lookup_node` reports both with the
same aggregated `Configuration not found` message — nothing in the reported
error distinguishes a corrupt file from an unknown alias. -/
def dirCorrupt : MeasuresDir := [("ce.json", some cfgCE), ("bad.json", none)]

def idxStale : Index := [("stale", "bad.json")]

theorem get_measure_config_indistinct_cex :
    lookupIdx idxStale "stale" = some "bad.json" ∧
    load_measure_config dirCorrupt "bad.json" = none ∧
    (find_measure_json dirCorrupt idxStale "missing").1 = none ∧
    (get_measure_config dirCorrupt idxStale "stale").1 = none ∧
    (get_measure_config dirCorrupt idxStale "stale").1 =
      (get_measure_config dirCorrupt idxStale "missing").1 ∧
    (json_lookup_node dirCorrupt idxStale
        { identified_measures := ["stale"] }).error =
      some (notFoundMsg ["stale"]) ∧
    (json_lookup_node dirCorrupt idxStale
        { identified_measures := ["missing"] }).error =
      some (notFoundMsg ["missing"]) := by
  refine ⟨by decide, by decide, by decide, by decide, by decide, by decide,
    by decide⟩

/-- C9 amended: a name whose index entry points to a missing or malformed
backing file resolves to the same absent result as a name with no index
entry at all; the two failure modes are distinguished only in console logs,
not in the value or error reported to the caller. -/
theorem get_measure_config_corrupt_absent :
    (∀ (dir : MeasuresDir) (idx : Index) (name f : String),
      lookupIdx idx (pyStripS (pyLowerS name)) = some f →
      load_measure_config dir f = none →
      (get_measure_config dir idx name).1 = none) ∧
    (∀ (dir : MeasuresDir) (idx : Index) (name : String),
      (find_measure_json dir idx name).1 = none →
      (get_measure_config dir idx name).1 = none) := by
  constructor
  · intro dir idx name f hfind hload
    simp [get_measure_config, find_measure_json, hfind, hload]
  · intro dir idx name h
    rcases hf : find_measure_json dir idx name with ⟨fOpt, idx'⟩
    rw [hf] at h
    simp at h
    subst h
    simp [get_measure_config, hf]

theorem get_measure_config_corrupt_absent_witness :
    (get_measure_config dirCorrupt idxStale "stale").1 = none :=
  get_measure_config_corrupt_absent.1 dirCorrupt idxStale "stale" "bad.json"
    (by decide) (by decide)

/-!
Claims about the pipeline.
-/

/-- Every requested measure ends up either resolved in the config mapping or
listed among the not-found names — no name is silently dropped. -/
theorem lookupAll_complete (dir : MeasuresDir) :
    ∀ (ms : List String) (idx : Index) (m : String), m ∈ ms →
      (∃ c, (m, c) ∈ (lookupAll dir ms idx).1) ∨
        m ∈ (lookupAll dir ms idx).2.1 := by
  intro ms
  induction ms with
  | nil => intro idx m h; simp at h
  | cons m0 rest ih =>
      intro idx m hmem
      rcases List.mem_cons.mp hmem with heq | htail
      · subst heq
        cases hr : (get_measure_config dir idx m).1 with
        | some c =>
            left
            exact ⟨c, by simp [lookupAll, hr]⟩
        | none =>
            right
            simp [lookupAll, hr]
      · cases hr : (get_measure_config dir idx m0).1 with
        | some c =>
            rcases ih (get_measure_config dir idx m0).2 m htail with ⟨c', hc'⟩ | hnf
            · exact Or.inl ⟨c', by simp [lookupAll, hr]; right; exact hc'⟩
            · exact Or.inr (by simp [lookupAll, hr]; exact hnf)
        | none =>
            rcases ih (get_measure_config dir idx m0).2 m htail with ⟨c', hc'⟩ | hnf
            · exact Or.inl ⟨c', by simp [lookupAll, hr]; exact hc'⟩
            · exact Or.inr (by simp [lookupAll, hr]; right; exact hnf)

/-- C4: resolution is atomic all-or-nothing — when any requested measure
fails to resolve, `json_lookup_node` records the single aggregated message
naming the complete not-found list, leaves `measure_configs` exactly as it
was (no partial mapping is written), and every requested measure is either
resolved or named in that list. -/
theorem json_lookup_node_atomic (dir : MeasuresDir) (idx : Index)
    (st : AgentState)
    (h : (lookupAll dir st.identified_measures idx).2.1 ≠ []) :
    (json_lookup_node dir idx st).error =
      some (notFoundMsg (lookupAll dir st.identified_measures idx).2.1) ∧
    (json_lookup_node dir idx st).measure_configs = st.measure_configs ∧
    ∀ m ∈ st.identified_measures,
      (∃ c, (m, c) ∈ (lookupAll dir st.identified_measures idx).1) ∨
        m ∈ (lookupAll dir st.identified_measures idx).2.1 := by
  refine ⟨?_, ?_, fun m hm => lookupAll_complete dir _ idx m hm⟩
  · simp [json_lookup_node, h]
  · simp [json_lookup_node, h]

/-- The `{"CE", "UNKNOWN"}` scenario: only `"CE"` has a configuration. -/
def stCE : AgentState := { identified_measures := ["CE", "UNKNOWN"] }

theorem json_lookup_node_atomic_witness :
    (json_lookup_node dirCE [] stCE).error =
      some ("Configuration not found for measure(s): UNKNOWN. " ++
        "Please upload the required JSON configuration files.") ∧
    (json_lookup_node dirCE [] stCE).measure_configs = none := by
  have h := json_lookup_node_atomic dirCE [] stCE (by decide)
  exact ⟨by rw [h.1]; decide, h.2.1.trans rfl⟩

/-- C10: the statement Node 8 submits to the data engine is
`user_confirmed_sql` when that is a non-empty string and `generated_sql`
(default `''`) when it is absent, `None`, or empty; and
`execute_and_export_node` consults the engine only at that statement. -/
theorem execute_sql_selection (st : AgentState) :
    (∀ s, st.user_confirmed_sql = some s → s ≠ "" → submittedSql st = s) ∧
    (st.user_confirmed_sql = none ∨ st.user_confirmed_sql = some "" →
      submittedSql st = st.generated_sql.getD "") ∧
    (∀ (envConn : String) (eng1 eng2 : String → Except String (List Row)),
      eng1 (submittedSql st) = eng2 (submittedSql st) →
      execute_and_export_node envConn eng1 st =
        execute_and_export_node envConn eng2 st) := by
  refine ⟨?_, ?_, ?_⟩
  · intro s hs hne
    simp [submittedSql, hs, hne]
  · intro h
    rcases h with h | h <;> simp [submittedSql, h]
  · intro envConn eng1 eng2 h
    simp only [execute_and_export_node, h]

theorem execute_sql_selection_witness :
    submittedSql { user_confirmed_sql := some "SELECT 2",
                   generated_sql := some "SELECT 1" } = "SELECT 2" ∧
    submittedSql { user_confirmed_sql := some "",
                   generated_sql := some "SELECT 1" } = "SELECT 1" ∧
    submittedSql { user_confirmed_sql := none,
                   generated_sql := some "SELECT 1" } = "SELECT 1" :=
  ⟨(execute_sql_selection _).1 "SELECT 2" rfl (by decide),
   ((execute_sql_selection _).2.1 (Or.inr rfl)).trans rfl,
   ((execute_sql_selection _).2.1 (Or.inl rfl)).trans rfl⟩

/-- C1 counterexample: with an interpret oracle that fails, the error slot is
set at the Interpret stage, yet the Rewrite stage still runs (it writes
`rewritten_query`), the first ReviewGate still runs (it confirms the
rewritten text), and the resolve stage still runs (it writes
`measure_configs := some []` for the empty measure list): the graph has no
error check on the `identify → rewrite → review1 → json_lookup` edges, so
stages after a failure are not no-ops. -/
def oraclesInterpFail : Oracles :=
  { interpret := fun _ => .error "Failed to parse measure identification: bad JSON"
    rewrite := fun _ _ _ _ _ => .ok "REWRITTEN"
    generate := fun _ _ _ => .ok "SELECT 1" }

def interpFailRun : AgentState :=
  run_workflow oraclesInterpFail [] [] "" (fun _ => .ok []) { user_query := "q" }

theorem run_workflow_no_short_circuit_cex :
    interpFailRun.error =
      some "Failed to parse measure identification: bad JSON" ∧
    interpFailRun.rewritten_query = some "REWRITTEN" ∧
    interpFailRun.user_confirmed_query = some "REWRITTEN" ∧
    interpFailRun.measure_configs = some [] := by
  refine ⟨by decide, by decide, by decide, by decide⟩

/-- C1 amended: the engine checks the error slot at exactly two transitions —
after the resolve stage (`json_lookup`) and after the second ReviewGate.
When the error slot is truthy at the first checkpoint the run ends there
(GenerateSQL, ReviewGate(sql) and Execute never run); when it is clear
there but truthy at the second checkpoint, the run ends after ReviewGate(sql)
(Execute never runs). Stages before the first checkpoint are unguarded. -/
theorem run_workflow_error_checkpoints (o : Oracles) (dir : MeasuresDir)
    (idx : Index) (envConn : String)
    (engine : String → Except String (List Row)) (st0 : AgentState) :
    (errSet (pipeline_pre_sql o dir idx st0) = true →
      run_workflow o dir idx envConn engine st0 =
        pipeline_pre_sql o dir idx st0) ∧
    (errSet (pipeline_pre_sql o dir idx st0) = false →
      errSet (pipeline_pre_execute o (pipeline_pre_sql o dir idx st0)) = true →
      run_workflow o dir idx envConn engine st0 =
        pipeline_pre_execute o (pipeline_pre_sql o dir idx st0)) := by
  constructor
  · intro h
    simp [run_workflow, h]
  · intro h1 h2
    simp [run_workflow, h1, h2]

/-- Oracles that succeed while the requested measure has no configuration,
so the error slot is first set at the resolve stage. -/
def oraclesNoConfig : Oracles :=
  { interpret := fun _ => .ok { measures := ["NOPE"] }
    rewrite := fun _ _ _ _ _ => .ok "rewritten"
    generate := fun _ _ _ => .ok "SELECT 1" }

theorem run_workflow_error_checkpoints_witness :
    run_workflow oraclesNoConfig [] [] "" (fun _ => .ok []) { user_query := "q" } =
      pipeline_pre_sql oraclesNoConfig [] [] { user_query := "q" } :=
  (run_workflow_error_checkpoints oraclesNoConfig [] [] ""
    (fun _ => .ok []) { user_query := "q" }).1 (by decide)
